import Mathlib

/-!
Shallow embedding of the CogniTrade paper-trading core (`tradingStore`:
`placeMarketOrder`, `placeLimitOrder`, `cancelPendingOrder`, `updatePrice`,
`checkAndFillOrders`) and of the round-trip reconciler / CSV exporter
(`convertTradesToCSV` in `LogUpload.tsx`).

Modelling conventions:
- JavaScript numbers are modelled as exact rationals (`ℚ`).
- Nondeterministic id/timestamp generation (`Date.now()` + `Math.random()`)
  is modelled by passing the fresh strings as explicit arguments.
- JavaScript `Record<string, number>` maps are modelled as
  `String → Option ℚ`; JS truthiness of an optional number (`if (x)`)
  is `truthy` below (`undefined` and `0` are falsy).
- The watchlist fields of the store are omitted: none of the modelled
  operations reads or writes them (`updateWatchlistPrice` is not among the
  operations under study).
-/

namespace CogniTrade

/-- Order side: `'buy' | 'sell'`. -/
inductive Side where
  | buy
  | sell
deriving DecidableEq, Repr

/-- Order types a `PendingOrder` can have: `'limit' | 'stop-loss' | 'take-profit'`. -/
inductive POType where
  | limit
  | stopLoss
  | takeProfit
deriving DecidableEq, Repr

/-- Order types a `FilledTrade` can have: `'market' | 'limit' | 'stop-loss' | 'take-profit'`. -/
inductive TOType where
  | market
  | limit
  | stopLoss
  | takeProfit
deriving DecidableEq, Repr

/-- Order status: `'pending' | 'filled' | 'cancelled'`. -/
inductive OrderStatus where
  | pending
  | filled
  | cancelled
deriving DecidableEq, Repr

/-- The `interface Position` of the trading store. -/
structure Position where
  ticker : String
  quantity : ℚ
  avgPrice : ℚ
  currentPrice : ℚ
  totalValue : ℚ
  pnl : ℚ
  pnlPercent : ℚ
deriving DecidableEq, Repr

/-- The `interface PendingOrder` of the trading store. -/
structure PendingOrder where
  id : String
  ticker : String
  type : Side
  orderType : POType
  quantity : ℚ
  targetPrice : ℚ
  total : ℚ
  createdAt : String
  status : OrderStatus
  stopLoss : Option ℚ := none
  takeProfit : Option ℚ := none
  note : Option String := none
  transcript : Option String := none
deriving DecidableEq, Repr

/-- The `interface FilledTrade` of the trading store. -/
structure FilledTrade where
  id : String
  ticker : String
  type : Side
  orderType : TOType
  quantity : ℚ
  price : ℚ
  total : ℚ
  timestamp : String
  status : OrderStatus
  limitPrice : Option ℚ := none
  stopLoss : Option ℚ := none
  takeProfit : Option ℚ := none
  filledFrom : Option String := none
  note : Option String := none
  transcript : Option String := none
deriving DecidableEq, Repr

/-- The store state touched by the trading operations
(`balance`, `trades`, `positions`, `pendingOrders`, `currentPrices`). -/
structure TradingState where
  balance : ℚ
  trades : List FilledTrade
  positions : List Position
  pendingOrders : List PendingOrder
  currentPrices : String → Option ℚ

/-- JS truthiness of an optional number: `undefined` and `0` are falsy. -/
def truthy : Option ℚ → Bool
  | none => false
  | some x => x ≠ 0

/-- Model of `list.find(p)` followed by in-place mutation of the found element:
replace the first element satisfying `p` by its image under `f`. -/
def updateFirst (p : α → Bool) (f : α → α) : List α → List α
  | [] => []
  | x :: xs => if p x then f x :: xs else x :: updateFirst p f xs

/-- Argument record of `placeMarketOrder`. -/
structure MarketReq where
  ticker : String
  type : Side
  quantity : ℚ
  price : ℚ
  stopLoss : Option ℚ := none
  takeProfit : Option ℚ := none
deriving DecidableEq, Repr

/-- Argument record of `placeLimitOrder`. -/
structure LimitReq where
  ticker : String
  type : Side
  orderType : POType
  quantity : ℚ
  targetPrice : ℚ
  stopLoss : Option ℚ := none
  takeProfit : Option ℚ := none
deriving DecidableEq, Repr

/-- The sell-side validation of `placeMarketOrder`/`placeLimitOrder`:
`!position || position.quantity < order.quantity` on the first position
with the ticker. -/
def cannotSell (ticker : String) (quantity : ℚ) (positions : List Position) : Bool :=
  match positions.find? (fun p => p.ticker = ticker) with
  | none => true
  | some position => position.quantity < quantity

/-- The position-list update a buy fill performs (shared verbatim between
`placeMarketOrder` and `checkAndFillOrders` in the source): merge into the
first position with the ticker via the weighted-average formula, or push a
fresh position at the end. -/
def applyBuyToPositions (ticker : String) (quantity fillPrice : ℚ)
    (positions : List Position) : List Position :=
  if (positions.find? (fun p => p.ticker = ticker)).isSome then
    updateFirst (fun p => p.ticker = ticker)
      (fun existing =>
        let totalQty := existing.quantity + quantity
        let newAvg := (existing.avgPrice * existing.quantity + fillPrice * quantity) / totalQty
        { existing with
            avgPrice := newAvg
            quantity := totalQty
            currentPrice := fillPrice
            totalValue := totalQty * fillPrice
            pnl := (fillPrice - newAvg) * totalQty
            pnlPercent := ((fillPrice - newAvg) / newAvg) * 100 })
      positions
  else
    positions ++ [{ ticker := ticker
                    quantity := quantity
                    avgPrice := fillPrice
                    currentPrice := fillPrice
                    totalValue := quantity * fillPrice
                    pnl := 0
                    pnlPercent := 0 }]

/-- The position-list update a sell fill performs (shared verbatim between
`placeMarketOrder` and `checkAndFillOrders` in the source): decrement the
first position with the ticker; if its quantity drops to `≤ 0`, filter out
every position with the ticker, otherwise refresh valuation fields. -/
def applySellToPositions (ticker : String) (quantity : ℚ)
    (positions : List Position) : List Position :=
  match positions.find? (fun p => p.ticker = ticker) with
  | none => positions
  | some existing =>
    if existing.quantity - quantity ≤ 0 then
      positions.filter (fun p => ¬ p.ticker = ticker)
    else
      updateFirst (fun p => p.ticker = ticker)
        (fun e =>
          let q := e.quantity - quantity
          { e with
              quantity := q
              totalValue := q * e.currentPrice
              pnl := (e.currentPrice - e.avgPrice) * q })
        positions

/-- The trading store's `placeMarketOrder`. Here `tradeId`/`slId`/`tpId` stand for
the generated `trade-…`/`pending-sl-…`/`pending-tp-…` ids and `ts` for
`new Date().toISOString()`. Returns the boolean result together with the
successor state (the state is unchanged on a `false` return). -/
def placeMarketOrder (tradeId ts slId tpId : String) (req : MarketReq)
    (s : TradingState) : Bool × TradingState :=
  let total := req.quantity * req.price
  if req.type = Side.buy ∧ total > s.balance then
    (false, s)
  else if req.type = Side.sell ∧ cannotSell req.ticker req.quantity s.positions then
    (false, s)
  else
    let trade : FilledTrade :=
      { id := tradeId
        ticker := req.ticker
        type := req.type
        orderType := TOType.market
        quantity := req.quantity
        price := req.price
        total := total
        timestamp := ts
        status := OrderStatus.filled
        stopLoss := req.stopLoss
        takeProfit := req.takeProfit }
    let newBalance :=
      if req.type = Side.buy then s.balance - total else s.balance + total
    let newPositions :=
      if req.type = Side.buy then
        applyBuyToPositions req.ticker req.quantity req.price s.positions
      else
        applySellToPositions req.ticker req.quantity s.positions
    let slOrders :=
      if req.type = Side.buy ∧ truthy req.stopLoss then
        [{ id := slId
           ticker := req.ticker
           type := Side.sell
           orderType := POType.stopLoss
           quantity := req.quantity
           targetPrice := req.stopLoss.getD 0
           total := req.quantity * req.stopLoss.getD 0
           createdAt := ts
           status := OrderStatus.pending : PendingOrder }]
      else []
    let tpOrders :=
      if req.type = Side.buy ∧ truthy req.takeProfit then
        [{ id := tpId
           ticker := req.ticker
           type := Side.sell
           orderType := POType.takeProfit
           quantity := req.quantity
           targetPrice := req.takeProfit.getD 0
           total := req.quantity * req.takeProfit.getD 0
           createdAt := ts
           status := OrderStatus.pending : PendingOrder }]
      else []
    (true,
      { s with
          balance := newBalance
          trades := trade :: s.trades
          positions := newPositions
          pendingOrders := s.pendingOrders ++ slOrders ++ tpOrders })

/-- The trading store's `placeLimitOrder`: validates, then prepends a
pending order; for buy orders the full `quantity * targetPrice` is debited
from the balance at submission time (reservation). -/
def placeLimitOrder (newId ts : String) (req : LimitReq)
    (s : TradingState) : Bool × TradingState :=
  let total := req.quantity * req.targetPrice
  if req.type = Side.buy ∧ total > s.balance then
    (false, s)
  else if req.type = Side.sell ∧ cannotSell req.ticker req.quantity s.positions then
    (false, s)
  else
    let pendingOrder : PendingOrder :=
      { id := newId
        ticker := req.ticker
        type := req.type
        orderType := req.orderType
        quantity := req.quantity
        targetPrice := req.targetPrice
        total := total
        createdAt := ts
        status := OrderStatus.pending
        stopLoss := req.stopLoss
        takeProfit := req.takeProfit }
    (true,
      { s with
          pendingOrders := pendingOrder :: s.pendingOrders
          balance := if req.type = Side.buy then s.balance - total else s.balance })

/-- The trading store's `cancelPendingOrder`. Note the source finds the
order by id only — it does not check `status === 'pending'` — and refunds
`order.total` for every buy-side order found. -/
def cancelPendingOrder (orderId : String) (s : TradingState) : TradingState :=
  match s.pendingOrders.find? (fun o => o.id = orderId) with
  | none => s
  | some order =>
    let refund := if order.type = Side.buy then order.total else 0
    { s with
        pendingOrders := s.pendingOrders.map (fun o =>
          if o.id = orderId then { o with status := OrderStatus.cancelled } else o)
        balance := s.balance + refund }

/-- Model of `symbol.toUpperCase()`: character-wise upper-casing (for
the ASCII ticker symbols this store handles). Defined character-wise so
that it evaluates on literals. -/
def jsToUpper (s : String) : String := String.mk (s.data.map Char.toUpper)

/-- The trading store's `updatePrice`: record the price (uppercased
symbol) and mark the matching positions to market. -/
def updatePrice (symbol : String) (price : ℚ) (s : TradingState) : TradingState :=
  let upperSymbol := jsToUpper symbol
  { s with
      currentPrices := fun k => if k = upperSymbol then some price else s.currentPrices k
      positions := s.positions.map (fun position =>
        if position.ticker = upperSymbol then
          { position with
              currentPrice := price
              totalValue := position.quantity * price
              pnl := (price - position.avgPrice) * position.quantity
              pnlPercent :=
                if position.avgPrice > 0 then
                  ((price - position.avgPrice) / position.avgPrice) * 100
                else 0 }
        else position) }

/-- The `switch (order.orderType)` of `checkAndFillOrders`: decide whether a
pending order triggers at `currentPrice`, and at what fill price.
Buy/sell limit orders fill at `targetPrice`; sell stop-loss / take-profit
orders fill at `currentPrice`; stop-loss and take-profit never trigger for
buy-side orders. -/
def triggerDecision (order : PendingOrder) (currentPrice : ℚ) : Option ℚ :=
  match order.orderType with
  | POType.limit =>
    if order.type = Side.buy ∧ currentPrice ≤ order.targetPrice then
      some order.targetPrice
    else if order.type = Side.sell ∧ currentPrice ≥ order.targetPrice then
      some order.targetPrice
    else none
  | POType.stopLoss =>
    if order.type = Side.sell ∧ currentPrice ≤ order.targetPrice then
      some currentPrice
    else none
  | POType.takeProfit =>
    if order.type = Side.sell ∧ currentPrice ≥ order.targetPrice then
      some currentPrice
    else none

/-- The loop accumulator of `checkAndFillOrders`
(`filledOrderIds`, `newTrades`, `balanceChange`, `positionsToUpdate`). -/
structure FillAcc where
  filledOrderIds : List String
  newTrades : List FilledTrade
  balanceChange : ℚ
  positionsToUpdate : List Position

/-- The `FilledTrade` record `checkAndFillOrders` builds for a triggered
order filling at `fillPrice`. `gen` supplies the generated id and timestamp. -/
def fillTrade (gen : PendingOrder → String × String) (order : PendingOrder)
    (fillPrice : ℚ) : FilledTrade :=
  { id := (gen order).1
    ticker := order.ticker
    type := order.type
    orderType :=
      match order.orderType with
      | POType.limit => TOType.limit
      | POType.stopLoss => TOType.stopLoss
      | POType.takeProfit => TOType.takeProfit
    quantity := order.quantity
    price := fillPrice
    total := order.quantity * fillPrice
    timestamp := (gen order).2
    status := OrderStatus.filled
    limitPrice := if order.orderType = POType.limit then some order.targetPrice else none
    stopLoss := order.stopLoss
    takeProfit := order.takeProfit
    filledFrom := some order.id
    note := order.note
    transcript := order.transcript }

/-- One iteration of the `for (const order of state.pendingOrders)` loop of
`checkAndFillOrders`. `gen` supplies the generated trade id and timestamp
for the order's fill. -/
def fillStep (gen : PendingOrder → String × String) (prices : String → Option ℚ)
    (acc : FillAcc) (order : PendingOrder) : FillAcc :=
  if order.status ≠ OrderStatus.pending then acc
  else if ¬ truthy (prices order.ticker) then acc
  else
    match triggerDecision order ((prices order.ticker).getD 0) with
    | none => acc
    | some fillPrice =>
      if order.type = Side.sell ∧
          cannotSell order.ticker order.quantity acc.positionsToUpdate then
        acc  -- skip this order, not enough shares
      else
        { filledOrderIds := acc.filledOrderIds ++ [order.id]
          newTrades := acc.newTrades ++ [fillTrade gen order fillPrice]
          balanceChange :=
            if order.type = Side.buy then acc.balanceChange
            else acc.balanceChange + order.quantity * fillPrice
          positionsToUpdate :=
            if order.type = Side.buy then
              applyBuyToPositions order.ticker order.quantity fillPrice acc.positionsToUpdate
            else
              applySellToPositions order.ticker order.quantity acc.positionsToUpdate }

/-- The trading store's `checkAndFillOrders`: scan all pending orders
against the latest prices, fill the triggered ones, and commit the
accumulated changes (only when at least one order filled). -/
def checkAndFillOrders (gen : PendingOrder → String × String)
    (s : TradingState) : TradingState :=
  let acc := s.pendingOrders.foldl (fillStep gen s.currentPrices)
    { filledOrderIds := []
      newTrades := []
      balanceChange := 0
      positionsToUpdate := s.positions }
  if acc.filledOrderIds ≠ [] then
    { s with
        pendingOrders := s.pendingOrders.map (fun o =>
          if acc.filledOrderIds.contains o.id then { o with status := OrderStatus.filled } else o)
        trades := acc.newTrades ++ s.trades
        positions := acc.positionsToUpdate
        balance := s.balance + acc.balanceChange }
  else s

/-! ### Operation alphabet and reachability -/

/-- One call into the trading store, with the generated ids/timestamps made
explicit. -/
inductive Op where
  | market (tradeId ts slId tpId : String) (req : MarketReq)
  | limitO (newId ts : String) (req : LimitReq)
  | cancel (orderId : String)
  | tick (symbol : String) (price : ℚ)
  | checkFill (gen : PendingOrder → String × String)

/-- Apply one operation to the state (discarding the boolean result of the
order-placing operations). -/
def Op.apply : Op → TradingState → TradingState
  | Op.market tradeId ts slId tpId req, s => (placeMarketOrder tradeId ts slId tpId req s).2
  | Op.limitO newId ts req, s => (placeLimitOrder newId ts req s).2
  | Op.cancel orderId, s => cancelPendingOrder orderId s
  | Op.tick symbol price, s => updatePrice symbol price s
  | Op.checkFill gen, s => checkAndFillOrders gen s

/-- Positivity of an operation's quantity and price arguments. -/
def Op.Valid : Op → Prop
  | Op.market _ _ _ _ req =>
      0 < req.quantity ∧ 0 < req.price ∧
      (∀ v, req.stopLoss = some v → 0 < v) ∧
      (∀ v, req.takeProfit = some v → 0 < v)
  | Op.limitO _ _ req => 0 < req.quantity ∧ 0 < req.targetPrice
  | Op.cancel _ => True
  | Op.tick _ price => 0 < price
  | Op.checkFill _ => True

instance : DecidablePred Op.Valid := by
  intro op
  cases op <;> simp only [Op.Valid] <;> infer_instance

/-- A fresh account: initial cash 100000, no positions, no pending orders,
no known prices; the pre-seeded trade log is a parameter (it plays no role
in the account invariants). -/
def initState (trades0 : List FilledTrade) : TradingState :=
  { balance := 100000
    trades := trades0
    positions := []
    pendingOrders := []
    currentPrices := fun _ => none }

/-- States reachable from a fresh account by valid operations. -/
inductive Reachable (trades0 : List FilledTrade) : TradingState → Prop where
  | init : Reachable trades0 (initState trades0)
  | step {s : TradingState} {op : Op} :
      Reachable trades0 s → op.Valid → Reachable trades0 (op.apply s)

/-! ### Concrete inputs used by claim witnesses and counterexamples -/

/-- A market buy of 10 AAPL at 150, with all generated ids fixed. -/
def opBuyAAPL : Op :=
  Op.market "trade-1" "2024-01-01" "sl-1" "tp-1"
    { ticker := "AAPL", type := Side.buy, quantity := 10, price := 150 }

/-- The rejection condition of `placeMarketOrder`: insufficient cash for a
buy or insufficient shares for a sell. -/
def marketRejected (req : MarketReq) (s : TradingState) : Prop :=
  (req.type = Side.buy ∧ req.quantity * req.price > s.balance) ∨
  (req.type = Side.sell ∧ cannotSell req.ticker req.quantity s.positions)

/-- The rejection condition of `placeLimitOrder`. -/
def limitRejected (req : LimitReq) (s : TradingState) : Prop :=
  (req.type = Side.buy ∧ req.quantity * req.targetPrice > s.balance) ∨
  (req.type = Side.sell ∧ cannotSell req.ticker req.quantity s.positions)

/-- A state with cash 1000 and nothing else (Scenario D). -/
def stateCash1000 : TradingState :=
  { balance := 1000
    trades := []
    positions := []
    pendingOrders := []
    currentPrices := fun _ => none }

/-- The Scenario D request: buy-side limit order for 10 MSFT at 300. -/
def lreqMSFT : LimitReq :=
  { ticker := "MSFT", type := Side.buy, orderType := POType.limit
    quantity := 10, targetPrice := 300 }

/-- A market buy of 10 MSFT at 300 (also unaffordable with cash 1000). -/
def mreqMSFT : MarketReq :=
  { ticker := "MSFT", type := Side.buy, quantity := 10, price := 300 }


/-- A buy-side pending order that has already been cancelled (total 3000). -/
def cancelledBuyOrder : PendingOrder :=
  { id := "o1", ticker := "MSFT", type := Side.buy, orderType := POType.limit
    quantity := 10, targetPrice := 300, total := 3000, createdAt := "2024-01-01"
    status := OrderStatus.cancelled }

/-- A state holding only the already-cancelled buy order and cash 500. -/
def stateCancelled : TradingState :=
  { balance := 500
    trades := []
    positions := []
    pendingOrders := [cancelledBuyOrder]
    currentPrices := fun _ => none }

/-- Scenario A request: market buy 10 AAPL at 150. -/
def reqBuyA : MarketReq :=
  { ticker := "AAPL", type := Side.buy, quantity := 10, price := 150 }

/-- Scenario B request: market buy 10 AAPL at 170. -/
def reqBuyB : MarketReq :=
  { ticker := "AAPL", type := Side.buy, quantity := 10, price := 170 }

/-- Scenario A state: fresh account after the first buy (cash 98500,
position 10 AAPL at avg 150). -/
def scenarioA : TradingState :=
  (placeMarketOrder "tA" "tsA" "slA" "tpA" reqBuyA (initState [])).2

/-- Scenario B state: after the second buy (cash 96800, avg cost 160). -/
def scenarioB : TradingState :=
  (placeMarketOrder "tB" "tsB" "slB" "tpB" reqBuyB scenarioA).2

/-- The AAPL position held in `scenarioA`. -/
def posA : Position :=
  { ticker := "AAPL", quantity := 10, avgPrice := 150, currentPrice := 150
    totalValue := 1500, pnl := 0, pnlPercent := 0 }

/-- Scenario C conditional order: limit sell 5 AAPL at 165. -/
def reqSellC : LimitReq :=
  { ticker := "AAPL", type := Side.sell, orderType := POType.limit
    quantity := 5, targetPrice := 165 }

/-- Scenario B plus the pending limit sell. -/
def scenarioC1 : TradingState := (placeLimitOrder "pC" "tsC" reqSellC scenarioB).2

/-- Scenario C after the AAPL tick at 166. -/
def scenarioC2 : TradingState := updatePrice "AAPL" 166 scenarioC1

/-- Scenario C final state: the evaluation pass fills the sell at 165. -/
def scenarioC3 : TradingState := checkAndFillOrders (fun _ => ("tC", "tsC2")) scenarioC2

/-- A pending sell limit order for 10 AAPL at 150. -/
def sellOrder10 : PendingOrder :=
  { id := "s10", ticker := "AAPL", type := Side.sell, orderType := POType.limit
    quantity := 10, targetPrice := 150, total := 1500, createdAt := "t0"
    status := OrderStatus.pending }

/-- An AAPL position of quantity 5 (insufficient for `sellOrder10`). -/
def posAAPL5 : Position :=
  { ticker := "AAPL", quantity := 5, avgPrice := 100, currentPrice := 160
    totalValue := 800, pnl := 300, pnlPercent := 60 }

/-- A state where `sellOrder10`'s trigger holds (price 160 ≥ 150) but only
5 of the 10 shares are held. -/
def stateSkip : TradingState :=
  { balance := 1000
    trades := []
    positions := [posAAPL5]
    pendingOrders := [sellOrder10]
    currentPrices := fun k => if k = "AAPL" then some 160 else none }

/-- State `stateSkip` after re-accumulating 5 more AAPL at 160 (10 shares held). -/
def stateRetry : TradingState :=
  (placeMarketOrder "tR" "tsR" "slR" "tpR"
    { ticker := "AAPL", type := Side.buy, quantity := 5, price := 160 } stateSkip).2

/-- Fixed id/timestamp generator for `checkAndFillOrders` evaluations. -/
def genR : PendingOrder → String × String := fun _ => ("tF", "tsF")

/-- A buy-side limit order for 10 MSFT at 30 (affordable with cash 1000). -/
def reqBuyLimitW : LimitReq :=
  { ticker := "MSFT", type := Side.buy, orderType := POType.limit
    quantity := 10, targetPrice := 30 }

/-- A sell request used to observe that sells leave average cost unchanged. -/
def reqSell5 : MarketReq :=
  { ticker := "AAPL", type := Side.sell, quantity := 5, price := 160 }

/-- A buy-side stop-loss conditional order request (5 AAPL, stop 150). -/
def reqBuyStop : LimitReq :=
  { ticker := "AAPL", type := Side.buy, orderType := POType.stopLoss
    quantity := 5, targetPrice := 150 }

/-! ### Round-trip reconciler and CSV export (`convertTradesToCSV`, LogUpload.tsx) -/

/-- An open buy lot tracked by `convertTradesToCSV`
(`{ quantity, price, timestamp }`). -/
structure OpenLot where
  quantity : ℚ
  price : ℚ
  timestamp : String
deriving DecidableEq, Repr

/-- A derived round-trip row of `convertTradesToCSV`
(`interface RoundTripTrade` in LogUpload.tsx). -/
structure RoundTripTrade where
  timestamp : String
  asset : String
  side : String
  quantity : ℚ
  entry_price : ℚ
  exit_price : ℚ
  profit_loss : ℚ
deriving DecidableEq, Repr

/-- The inner `while (remainingSellQty > 0 && positions.length > 0)` loop of
`convertTradesToCSV`'s sell branch: consume open lots FIFO with
`matchQty = min(remainingSellQty, position.quantity)`, emitting one record
per matched portion with `profitLoss = (exitPrice - entryPrice) * matchQty`;
a fully consumed front lot is shifted off, a partially consumed one keeps
its reduced quantity (in which case the remaining quantity is zero and the
loop exits). Returns the emitted records and the surviving lots. -/
def matchSell (exitPrice : ℚ) (ts asset : String) :
    ℚ → List OpenLot → List RoundTripTrade × List OpenLot
  | _, [] => ([], [])
  | remaining, lot :: rest =>
    if remaining ≤ 0 then ([], lot :: rest)
    else
      let matchQty := min remaining lot.quantity
      let rt : RoundTripTrade :=
        { timestamp := ts, asset := asset, side := "SELL", quantity := matchQty
          entry_price := lot.price, exit_price := exitPrice
          profit_loss := (exitPrice - lot.price) * matchQty }
      if lot.quantity - matchQty ≤ 0 then
        let res := matchSell exitPrice ts asset (remaining - matchQty) rest
        (rt :: res.1, res.2)
      else
        ([rt], { lot with quantity := lot.quantity - matchQty } :: rest)

/-- Loop state of `convertTradesToCSV`: the per-ticker open-lot queues
(`openPositions`, a JS `Map` modelled as a total function defaulting to the
empty queue) and the emitted round trips. -/
structure ReconState where
  openPositions : String → List OpenLot
  roundTrips : List RoundTripTrade

/-- One iteration of the `for (const trade of sortedTrades)` loop: a buy
pushes an open lot at the back of its ticker's queue; a sell FIFO-matches
against the queue. -/
def reconStep (st : ReconState) (t : FilledTrade) : ReconState :=
  match t.type with
  | Side.buy =>
    { st with
        openPositions := fun k =>
          if k = t.ticker then
            st.openPositions t.ticker ++ [⟨t.quantity, t.price, t.timestamp⟩]
          else st.openPositions k }
  | Side.sell =>
    let res := matchSell t.price t.timestamp t.ticker t.quantity
      (st.openPositions t.ticker)
    { openPositions := fun k => if k = t.ticker then res.2 else st.openPositions k
      roundTrips := st.roundTrips ++ res.1 }

/-- Stable insertion used to model the JS stable `Array.prototype.sort` with
comparator `key a - key b`: an element goes before the first element with a
key not smaller than its own. -/
def insertByKey (key : α → ℤ) (x : α) : List α → List α
  | [] => [x]
  | y :: ys => if key y < key x then y :: insertByKey key x ys else x :: y :: ys

/-- Stable ascending sort by a numeric key. -/
def sortByKey (key : α → ℤ) (l : List α) : List α :=
  l.foldr (insertByKey key) []

/-- The round-trip derivation of `convertTradesToCSV`: keep the trades with
`status === 'filled'`, sort ascending by the numeric timestamp key (`key`
models `new Date(t.timestamp).getTime()`), then FIFO-match sells against the
per-ticker open buy lots. -/
def convertRoundTrips (key : String → ℤ) (trades : List FilledTrade) :
    List RoundTripTrade :=
  ((sortByKey (fun t => key t.timestamp)
      (trades.filter (fun t => t.status = OrderStatus.filled))).foldl reconStep
    { openPositions := fun _ => [], roundTrips := [] }).roundTrips

/-- One data row of the generated CSV. The `timestamp` field carries the
round trip's timestamp (the source renders it as `"M/D/YYYY H:mm"` via
`Date`; that calendar formatting is not modelled); the numeric fields hold
the exact values the source renders with `toFixed(2)`. -/
structure CsvRow where
  timestamp : String
  asset : String
  side : String
  quantity : ℚ
  entry_price : ℚ
  exit_price : ℚ
  profit_loss : ℚ
  balance : ℚ
  calcBal : ℚ
  hI : ℚ
deriving DecidableEq, Repr

/-- The `INITIAL_BALANCE` constant in `convertTradesToCSV`. -/
def csvInitialBalance : ℚ := 100000

/-- The `headers` array of `convertTradesToCSV`, in order. -/
def csvHeaders : List String :=
  ["timestamp", "asset", "side", "quantity", "entry_price", "exit_price",
   "profit_loss", "balance", "CALC_BAL", "H-I"]

/-- One iteration of the `roundTripTrades.map` row builder in
`convertTradesToCSV`: the mutable `balance` accumulates the round trip's
`profit_loss` before being written into both the `balance` and `CALC_BAL`
fields; `H-I` is the placeholder 0. -/
def csvStep (acc : ℚ × List CsvRow) (rt : RoundTripTrade) : ℚ × List CsvRow :=
  let balance := acc.1 + rt.profit_loss
  (balance,
    acc.2 ++ [{ timestamp := rt.timestamp
                asset := rt.asset
                side := rt.side
                quantity := rt.quantity
                entry_price := rt.entry_price
                exit_price := rt.exit_price
                profit_loss := rt.profit_loss
                balance := balance
                calcBal := balance
                hI := 0 }])

/-- The data rows of `convertTradesToCSV`: the running balance starts at
`INITIAL_BALANCE`. -/
def csvRows (rts : List RoundTripTrade) : List CsvRow :=
  (rts.foldl csvStep (csvInitialBalance, [])).2

/-! #### Definitions written from the claims' wording, for comparison -/

/-- A lot of the symmetric algorithm worded in the FIFO claim: `side` is
the side of the fill that opened it (buy lot or short sell lot). -/
structure SidedLot where
  side : Side
  quantity : ℚ
  price : ℚ
  timestamp : String
deriving DecidableEq, Repr

/-- One round trip as the FIFO claim words it: entry price from the
consumed lot, exit price from the opposing (closing) fill,
`pnl = (exitPrice - entryPrice) * matchedQuantity`, sign-flipped when the
consumed lot is a short (sell-opened) lot. -/
def mkSpecRoundTrip (lot : SidedLot) (closing : FilledTrade) (qty : ℚ) :
    RoundTripTrade :=
  { timestamp := closing.timestamp
    asset := closing.ticker
    side := match closing.type with | Side.buy => "BUY" | Side.sell => "SELL"
    quantity := qty
    entry_price := lot.price
    exit_price := closing.price
    profit_loss :=
      match lot.side with
      | Side.buy => (closing.price - lot.price) * qty
      | Side.sell => -((closing.price - lot.price) * qty) }

/-- Consumption step of the claim's symmetric algorithm: the opposing fill
consumes lots from the front of the queue, splitting a lot when the fill
quantity left is smaller than the lot's remaining quantity; fill quantity
surviving an emptied queue opens a lot on the fill's own side. -/
def specConsume (t : FilledTrade) :
    ℚ → List SidedLot → List RoundTripTrade × List SidedLot
  | remaining, [] =>
    if 0 < remaining then ([], [⟨t.type, remaining, t.price, t.timestamp⟩])
    else ([], [])
  | remaining, lot :: rest =>
    if remaining ≤ 0 then ([], lot :: rest)
    else
      let matchQty := min remaining lot.quantity
      let rt := mkSpecRoundTrip lot t matchQty
      if lot.quantity ≤ remaining then
        let res := specConsume t (remaining - matchQty) rest
        (rt :: res.1, res.2)
      else
        ([rt], { lot with quantity := lot.quantity - matchQty } :: rest)

/-- One fill processed by the claim's symmetric algorithm: a fill on the
side of the open queue appends a lot at the back; an opposite-side fill
consumes from the front. -/
def specStep (st : (String → List SidedLot) × List RoundTripTrade)
    (t : FilledTrade) : (String → List SidedLot) × List RoundTripTrade :=
  match st.1 t.ticker with
  | [] =>
    (fun k => if k = t.ticker then [⟨t.type, t.quantity, t.price, t.timestamp⟩]
      else st.1 k,
     st.2)
  | lot :: rest =>
    if lot.side = t.type then
      (fun k => if k = t.ticker then
          (lot :: rest) ++ [⟨t.type, t.quantity, t.price, t.timestamp⟩]
        else st.1 k,
       st.2)
    else
      let res := specConsume t t.quantity (lot :: rest)
      (fun k => if k = t.ticker then res.2 else st.1 k, st.2 ++ res.1)

/-- The FIFO reconciliation exactly as the claim words it, including the
"(or open short lots, symmetric)" and "sign-flipped for short round-trips"
parts. Written from the claim's wording, to be compared with
`convertRoundTrips` (the source's algorithm). -/
def fifoWithShorts (key : String → ℤ) (trades : List FilledTrade) :
    List RoundTripTrade :=
  ((sortByKey (fun t => key t.timestamp)
      (trades.filter (fun t => t.status = OrderStatus.filled))).foldl specStep
    (fun _ => [], [])).2

/-- Lot consumption as the amended claim words it: a sell consumes open buy
lots from the front, splitting the front lot when the sell quantity left is
smaller than the lot's remaining quantity, emitting one record per
(sell, consumed-lot) pairing with `pnl = (exitPrice - entryPrice) *
matchedQuantity`; sell quantity not covered by open lots is dropped. -/
def consumeLots (exitPrice : ℚ) (ts asset : String) :
    ℚ → List OpenLot → List RoundTripTrade × List OpenLot
  | _, [] => ([], [])
  | remaining, lot :: rest =>
    if 0 < remaining then
      if remaining < lot.quantity then
        ([{ timestamp := ts, asset := asset, side := "SELL", quantity := remaining
            entry_price := lot.price, exit_price := exitPrice
            profit_loss := (exitPrice - lot.price) * remaining }],
         { lot with quantity := lot.quantity - remaining } :: rest)
      else
        let res := consumeLots exitPrice ts asset (remaining - lot.quantity) rest
        ({ timestamp := ts, asset := asset, side := "SELL", quantity := lot.quantity
           entry_price := lot.price, exit_price := exitPrice
           profit_loss := (exitPrice - lot.price) * lot.quantity } :: res.1,
         res.2)
    else ([], lot :: rest)

/-- Recursive presentation of the amended claim's algorithm over the
already-sorted fill list. -/
def fifoGo : List FilledTrade → (String → List OpenLot) → List RoundTripTrade
  | [], _ => []
  | t :: rest, lots =>
    match t.type with
    | Side.buy =>
      fifoGo rest (fun k =>
        if k = t.ticker then lots t.ticker ++ [⟨t.quantity, t.price, t.timestamp⟩]
        else lots k)
    | Side.sell =>
      let res := consumeLots t.price t.timestamp t.ticker t.quantity (lots t.ticker)
      res.1 ++ fifoGo rest (fun k => if k = t.ticker then res.2 else lots k)

/-- The amended claim's algorithm: timestamp-order the filled trades, keep a
per-symbol FIFO queue of open buy lots only, consume from the front on each
sell. Written from the amended claim's wording, to be compared with
`convertRoundTrips`. -/
def fifoLongOnly (key : String → ℤ) (trades : List FilledTrade) :
    List RoundTripTrade :=
  fifoGo (sortByKey (fun t => key t.timestamp)
    (trades.filter (fun t => t.status = OrderStatus.filled))) (fun _ => [])

/-- Running balance fold from the outbound-CSV claim: starting from `b`,
each round trip's profit is added and the intermediate sums are listed. -/
def runningBalances (b : ℚ) : List ℚ → List ℚ
  | [] => []
  | p :: ps => (b + p) :: runningBalances (b + p) ps

/-- A trade log whose first fill is an uncovered sell: 5 ABC sold at 10,
then 5 ABC bought at 8. -/
def sellFirstLog : List FilledTrade :=
  [{ id := "x1", ticker := "ABC", type := Side.sell, orderType := TOType.market
     quantity := 5, price := 10, total := 50, timestamp := "u1"
     status := OrderStatus.filled },
   { id := "x2", ticker := "ABC", type := Side.buy, orderType := TOType.market
     quantity := 5, price := 8, total := 40, timestamp := "u2"
     status := OrderStatus.filled }]

/-- Timestamp key placing `"u1"` before `"u2"`. -/
def keyT : String → ℤ := fun ts => if ts = "u1" then 1 else 2

/-- Two concrete round trips for the CSV-shape witness. -/
def rtsW : List RoundTripTrade :=
  [{ timestamp := "u1", asset := "AAPL", side := "SELL", quantity := 5
     entry_price := 150, exit_price := 160, profit_loss := 50 },
   { timestamp := "u2", asset := "AAPL", side := "SELL", quantity := 5
     entry_price := 150, exit_price := 140, profit_loss := -50 }]

/-! ### Invariants -/

/-- Every recorded current price is positive. -/
def PricesPos (prices : String → Option ℚ) : Prop :=
  ∀ sym q, prices sym = some q → 0 < q

/-- The well-formedness every pending order created by a valid operation
enjoys: positive quantity and target price, nonnegative total. -/
def PendInv (o : PendingOrder) : Prop :=
  0 < o.quantity ∧ 0 < o.targetPrice ∧ 0 ≤ o.total

/-- The inductive state invariant: nonnegative cash, positive position
quantities, well-formed pending orders, positive recorded prices. -/
def Inv (s : TradingState) : Prop :=
  0 ≤ s.balance ∧
  (∀ p ∈ s.positions, 0 < p.quantity) ∧
  (∀ o ∈ s.pendingOrders, PendInv o) ∧
  PricesPos s.currentPrices

theorem mem_updateFirst {p : α → Bool} {f : α → α} {l : List α} {x : α}
    (h : x ∈ updateFirst p f l) :
    x ∈ l ∨ ∃ y, l.find? p = some y ∧ x = f y := by
  induction l with
  | nil => simp [updateFirst] at h
  | cons hd tl ih =>
    by_cases hp : p hd
    · simp only [updateFirst, hp, if_true, List.mem_cons] at h
      rcases h with h | h
      · exact Or.inr ⟨hd, by simp [List.find?, hp], h⟩
      · exact Or.inl (List.mem_cons_of_mem _ h)
    · simp only [updateFirst, hp, if_false, Bool.false_eq_true, List.mem_cons] at h
      rcases h with h | h
      · exact Or.inl (by simp [h])
      · rcases ih h with h' | ⟨y, hy, hx⟩
        · exact Or.inl (List.mem_cons_of_mem _ h')
        · refine Or.inr ⟨y, ?_, hx⟩
          simpa [List.find?, hp] using hy

theorem applyBuy_quantity_pos {ticker : String} {quantity fillPrice : ℚ}
    {positions : List Position}
    (hq : 0 < quantity) (hpos : ∀ p ∈ positions, 0 < p.quantity) :
    ∀ p ∈ applyBuyToPositions ticker quantity fillPrice positions, 0 < p.quantity := by
  intro p hp
  unfold applyBuyToPositions at hp
  split at hp
  · rcases mem_updateFirst hp with h | ⟨y, hy, rfl⟩
    · exact hpos p h
    · have hy' := hpos y (List.mem_of_find?_eq_some hy)
      simp only []
      linarith
  · rcases List.mem_append.mp hp with h | h
    · exact hpos p h
    · simp only [List.mem_singleton] at h
      subst h
      simpa using hq

theorem applySell_quantity_pos {ticker : String} {quantity : ℚ}
    {positions : List Position}
    (hpos : ∀ p ∈ positions, 0 < p.quantity) :
    ∀ p ∈ applySellToPositions ticker quantity positions, 0 < p.quantity := by
  intro p hp
  unfold applySellToPositions at hp
  split at hp
  · exact hpos p hp
  case _ existing hfind =>
    split at hp
    · exact hpos p (List.mem_of_mem_filter hp)
    case _ hgt =>
      rcases mem_updateFirst hp with h | ⟨y, hy, rfl⟩
      · exact hpos p h
      · rw [hfind] at hy
        injection hy with hy
        subst hy
        simp only []
        linarith [not_le.mp hgt]

theorem triggerDecision_price_pos {o : PendingOrder} {cp fp : ℚ}
    (ht : 0 < o.targetPrice) (hcp : 0 < cp)
    (h : triggerDecision o cp = some fp) : 0 < fp := by
  unfold triggerDecision at h
  split at h <;> split_ifs at h <;>
    first
    | (injection h with h; subst h; exact ht)
    | (injection h with h; subst h; exact hcp)

/-- Invariant on the `checkAndFillOrders` loop accumulator. -/
def AccInv (acc : FillAcc) : Prop :=
  0 ≤ acc.balanceChange ∧ ∀ p ∈ acc.positionsToUpdate, 0 < p.quantity

theorem fillStep_accInv {gen : PendingOrder → String × String}
    {prices : String → Option ℚ} {acc : FillAcc} {order : PendingOrder}
    (hP : PricesPos prices) (ho : PendInv order) (hacc : AccInv acc) :
    AccInv (fillStep gen prices acc order) := by
  unfold fillStep
  by_cases h1 : order.status ≠ OrderStatus.pending
  · rwa [if_pos h1]
  rw [if_neg h1]
  by_cases h2 : ¬ truthy (prices order.ticker) = true
  · rwa [if_pos h2]
  rw [if_neg h2]
  push_neg at h2
  obtain ⟨v, hv⟩ : ∃ v, prices order.ticker = some v := by
    cases hpo : prices order.ticker with
    | none => rw [hpo] at h2; simp [truthy] at h2
    | some v => exact ⟨v, rfl⟩
  have hvpos : 0 < v := hP _ _ hv
  split
  · exact hacc
  · rename_i fillPrice htr
    have hfp : 0 < fillPrice := by
      refine triggerDecision_price_pos ho.2.1 ?_ htr
      simpa [hv] using hvpos
    by_cases h3 : order.type = Side.sell ∧
        cannotSell order.ticker order.quantity acc.positionsToUpdate = true
    · rwa [if_pos h3]
    rw [if_neg h3]
    refine ⟨?_, ?_⟩
    · simp only []
      split_ifs
      · exact hacc.1
      · have : 0 ≤ order.quantity * fillPrice := le_of_lt (mul_pos ho.1 hfp)
        linarith [hacc.1]
    · simp only []
      split_ifs
      · exact applyBuy_quantity_pos ho.1 hacc.2
      · exact applySell_quantity_pos hacc.2

theorem foldl_fillStep_accInv {gen : PendingOrder → String × String}
    {prices : String → Option ℚ} (hP : PricesPos prices) :
    ∀ (orders : List PendingOrder) (acc : FillAcc),
      (∀ o ∈ orders, PendInv o) → AccInv acc →
      AccInv (orders.foldl (fillStep gen prices) acc) := by
  intro orders
  induction orders with
  | nil => intro acc _ hacc; exact hacc
  | cons hd tl ih =>
    intro acc hords hacc
    exact ih _ (fun o ho => hords o (List.mem_cons_of_mem _ ho))
      (fillStep_accInv hP (hords hd (List.mem_cons_self _ _)) hacc)

theorem inv_placeMarketOrder {tradeId ts slId tpId : String} {req : MarketReq}
    {s : TradingState}
    (hq : 0 < req.quantity) (hp : 0 < req.price)
    (hsl : ∀ v, req.stopLoss = some v → 0 < v)
    (htp : ∀ v, req.takeProfit = some v → 0 < v)
    (h : Inv s) : Inv (placeMarketOrder tradeId ts slId tpId req s).2 := by
  obtain ⟨hbal, hpos, hpend, hP⟩ := h
  simp only [placeMarketOrder]
  by_cases h1 : req.type = Side.buy ∧ req.quantity * req.price > s.balance
  · rw [if_pos h1]; exact ⟨hbal, hpos, hpend, hP⟩
  rw [if_neg h1]
  by_cases h2 : req.type = Side.sell ∧ cannotSell req.ticker req.quantity s.positions = true
  · rw [if_pos h2]; exact ⟨hbal, hpos, hpend, hP⟩
  rw [if_neg h2]
  refine ⟨?_, ?_, ?_, hP⟩
  · simp only []
    split_ifs with hb
    · have hng : ¬ req.quantity * req.price > s.balance := fun hgt => h1 ⟨hb, hgt⟩
      have := not_lt.mp hng
      linarith
    · have := mul_pos hq hp
      linarith
  · simp only []
    split_ifs with hb
    · exact applyBuy_quantity_pos hq hpos
    · exact applySell_quantity_pos hpos
  · intro o ho
    simp only [List.append_assoc, List.mem_append] at ho
    rcases ho with ho | ho | ho
    · exact hpend o ho
    · split_ifs at ho with hc
      · simp only [List.mem_singleton] at ho
        subst ho
        obtain ⟨w, hw⟩ : ∃ w, req.stopLoss = some w := by
          cases hso : req.stopLoss with
          | none => rw [hso] at hc; simp [truthy] at hc
          | some w => exact ⟨w, rfl⟩
        have hwpos : 0 < w := hsl w hw
        refine ⟨hq, ?_, ?_⟩
        · simpa [hw] using hwpos
        · simp only [hw, Option.getD_some]
          positivity
      · simp at ho
    · split_ifs at ho with hc
      · simp only [List.mem_singleton] at ho
        subst ho
        obtain ⟨w, hw⟩ : ∃ w, req.takeProfit = some w := by
          cases hso : req.takeProfit with
          | none => rw [hso] at hc; simp [truthy] at hc
          | some w => exact ⟨w, rfl⟩
        have hwpos : 0 < w := htp w hw
        refine ⟨hq, ?_, ?_⟩
        · simpa [hw] using hwpos
        · simp only [hw, Option.getD_some]
          positivity
      · simp at ho

theorem inv_placeLimitOrder {newId ts : String} {req : LimitReq} {s : TradingState}
    (hq : 0 < req.quantity) (ht : 0 < req.targetPrice)
    (h : Inv s) : Inv (placeLimitOrder newId ts req s).2 := by
  obtain ⟨hbal, hpos, hpend, hP⟩ := h
  simp only [placeLimitOrder]
  by_cases h1 : req.type = Side.buy ∧ req.quantity * req.targetPrice > s.balance
  · rw [if_pos h1]; exact ⟨hbal, hpos, hpend, hP⟩
  rw [if_neg h1]
  by_cases h2 : req.type = Side.sell ∧ cannotSell req.ticker req.quantity s.positions = true
  · rw [if_pos h2]; exact ⟨hbal, hpos, hpend, hP⟩
  rw [if_neg h2]
  refine ⟨?_, hpos, ?_, hP⟩
  · simp only []
    split_ifs with hb
    · have hng : ¬ req.quantity * req.targetPrice > s.balance := fun hgt => h1 ⟨hb, hgt⟩
      have := not_lt.mp hng
      linarith
    · exact hbal
  · intro o ho
    simp only [List.mem_cons] at ho
    rcases ho with ho | ho
    · subst ho
      exact ⟨hq, ht, le_of_lt (mul_pos hq ht)⟩
    · exact hpend o ho

theorem inv_cancelPendingOrder {orderId : String} {s : TradingState}
    (h : Inv s) : Inv (cancelPendingOrder orderId s) := by
  obtain ⟨hbal, hpos, hpend, hP⟩ := h
  unfold cancelPendingOrder
  cases hfind : s.pendingOrders.find? (fun o => o.id = orderId) with
  | none => exact ⟨hbal, hpos, hpend, hP⟩
  | some order =>
    have horder := hpend order (List.mem_of_find?_eq_some hfind)
    refine ⟨?_, hpos, ?_, hP⟩
    · simp only []
      split_ifs
      · linarith [horder.2.2]
      · linarith
    · intro o ho
      simp only [List.mem_map] at ho
      obtain ⟨o', ho', rfl⟩ := ho
      have h' := hpend o' ho'
      split_ifs
      · exact h'
      · exact h'

theorem inv_updatePrice {symbol : String} {price : ℚ} {s : TradingState}
    (hprice : 0 < price) (h : Inv s) : Inv (updatePrice symbol price s) := by
  obtain ⟨hbal, hpos, hpend, hP⟩ := h
  unfold updatePrice
  refine ⟨hbal, ?_, hpend, ?_⟩
  · intro p hp
    simp only [List.mem_map] at hp
    obtain ⟨p', hp', rfl⟩ := hp
    have h' := hpos p' hp'
    split_ifs <;> exact h'
  · intro sym q hq
    simp only [] at hq
    split_ifs at hq
    · injection hq with hq
      subst hq
      exact hprice
    · exact hP _ _ hq

theorem inv_checkAndFillOrders {gen : PendingOrder → String × String}
    {s : TradingState} (h : Inv s) : Inv (checkAndFillOrders gen s) := by
  obtain ⟨hbal, hpos, hpend, hP⟩ := h
  simp only [checkAndFillOrders]
  have hacc : AccInv (s.pendingOrders.foldl (fillStep gen s.currentPrices)
      { filledOrderIds := []
        newTrades := []
        balanceChange := 0
        positionsToUpdate := s.positions }) :=
    foldl_fillStep_accInv hP s.pendingOrders _ hpend
      ⟨le_refl 0, hpos⟩
  split_ifs
  · refine ⟨?_, hacc.2, ?_, hP⟩
    · simp only []
      linarith [hacc.1]
    · intro o ho
      simp only [List.mem_map] at ho
      obtain ⟨o', ho', rfl⟩ := ho
      have h' := hpend o' ho'
      split_ifs
      · exact h'
      · exact h'
  · exact ⟨hbal, hpos, hpend, hP⟩

theorem inv_initState (trades0 : List FilledTrade) : Inv (initState trades0) := by
  refine ⟨by norm_num [initState], ?_, ?_, ?_⟩
  · intro p hp
    simp [initState] at hp
  · intro o ho
    simp [initState] at ho
  · intro sym q hq
    simp [initState] at hq

theorem reachable_inv {trades0 : List FilledTrade} {s : TradingState}
    (h : Reachable trades0 s) : Inv s := by
  induction h with
  | init => exact inv_initState trades0
  | step hr hv ih =>
    rename_i s' op
    cases op with
    | market tradeId ts slId tpId req =>
      obtain ⟨hq, hp, hsl, htp⟩ := hv
      exact inv_placeMarketOrder hq hp hsl htp ih
    | limitO newId ts req =>
      obtain ⟨hq, ht⟩ := hv
      exact inv_placeLimitOrder hq ht ih
    | cancel orderId => exact inv_cancelPendingOrder ih
    | tick symbol price => exact inv_updatePrice hv ih
    | checkFill gen => exact inv_checkAndFillOrders ih

/-! ### Claim C1 -/

/-- C1: in every state reachable from a fresh account (initial cash 100000,
no positions, no pending orders) by any sequence of `placeMarketOrder`,
`placeLimitOrder`, `cancelPendingOrder`, `updatePrice` and
`checkAndFillOrders` calls with positive quantities and prices, the cash
balance is nonnegative and every stored position has positive quantity. -/
theorem c1_reachable_cash_nonneg_positions_pos {trades0 : List FilledTrade}
    {s : TradingState} (h : Reachable trades0 s) :
    0 ≤ s.balance ∧ ∀ p ∈ s.positions, 0 < p.quantity :=
  ⟨(reachable_inv h).1, (reachable_inv h).2.1⟩

theorem c1_witness :
    0 ≤ (opBuyAAPL.apply (initState [])).balance ∧
      ∀ p ∈ (opBuyAAPL.apply (initState [])).positions, 0 < p.quantity :=
  c1_reachable_cash_nonneg_positions_pos
    (Reachable.step Reachable.init (by decide))

/-! ### Claim C2 -/

/-- C2: a submission rejected for insufficient cash (buy with
`quantity*price` exceeding cash) or insufficient shares (sell without a
position of at least the requested quantity) returns `false` and leaves the
entire state — cash, positions, pending orders and trade log — exactly as
it was before the call, for both `placeMarketOrder` and `placeLimitOrder`. -/
theorem c2_rejected_submission_is_noop
    (a b c d newId ts : String) (mreq : MarketReq) (lreq : LimitReq)
    (s : TradingState)
    (hm : marketRejected mreq s) (hl : limitRejected lreq s) :
    placeMarketOrder a b c d mreq s = (false, s) ∧
    placeLimitOrder newId ts lreq s = (false, s) := by
  constructor
  · simp only [placeMarketOrder]
    rcases hm with h | h
    · rw [if_pos h]
    · by_cases hb : mreq.type = Side.buy ∧ mreq.quantity * mreq.price > s.balance
      · rw [if_pos hb]
      · rw [if_neg hb, if_pos h]
  · simp only [placeLimitOrder]
    rcases hl with h | h
    · rw [if_pos h]
    · by_cases hb : lreq.type = Side.buy ∧ lreq.quantity * lreq.targetPrice > s.balance
      · rw [if_pos hb]
      · rw [if_neg hb, if_pos h]

theorem c2_witness :
    placeMarketOrder "t" "ts" "sl" "tp" mreqMSFT stateCash1000 = (false, stateCash1000) ∧
    placeLimitOrder "p" "ts" lreqMSFT stateCash1000 = (false, stateCash1000) :=
  c2_rejected_submission_is_noop "t" "ts" "sl" "tp" "p" "ts" mreqMSFT lreqMSFT
    stateCash1000
    (Or.inl ⟨rfl, by norm_num [mreqMSFT, stateCash1000]⟩)
    (Or.inl ⟨rfl, by norm_num [lreqMSFT, stateCash1000]⟩)

/-! ### Claim C3 -/

/-- C3 counterexample: `cancelPendingOrder` on an order whose status is
already `cancelled` (not `pending`) is neither a no-op nor a failure — it
refunds the buy order's total a second time, changing the balance from 500
to 3500. -/
theorem c3_counterexample :
    cancelledBuyOrder.status ≠ OrderStatus.pending ∧
    (cancelPendingOrder "o1" stateCancelled).balance = 3500 ∧
    stateCancelled.balance = 500 := by
  refine ⟨by decide, ?_, rfl⟩
  norm_num +decide [cancelPendingOrder, stateCancelled, cancelledBuyOrder, List.find?]

/-- C3 (amended): `cancelPendingOrder` looks the order up by id only — it
never inspects the status. Whenever an order with the id exists, whatever
its status (pending, filled or cancelled), every order with that id is
(re)marked `cancelled` and, if the found order is buy-side, its `total` is
refunded (for a non-pending order: refunded again); positions and the trade
log are never touched. Only an unknown id is a no-op. -/
theorem c3_cancel_ignores_status (orderId : String) (s : TradingState) :
    (s.pendingOrders.find? (fun o => o.id = orderId) = none →
      cancelPendingOrder orderId s = s) ∧
    ∀ order, s.pendingOrders.find? (fun o => o.id = orderId) = some order →
      (cancelPendingOrder orderId s).balance =
        s.balance + (if order.type = Side.buy then order.total else 0) ∧
      (cancelPendingOrder orderId s).pendingOrders =
        s.pendingOrders.map (fun o =>
          if o.id = orderId then { o with status := OrderStatus.cancelled } else o) ∧
      (cancelPendingOrder orderId s).positions = s.positions ∧
      (cancelPendingOrder orderId s).trades = s.trades := by
  constructor
  · intro h
    unfold cancelPendingOrder
    rw [h]
  · intro order h
    unfold cancelPendingOrder
    rw [h]
    exact ⟨rfl, rfl, rfl, rfl⟩

theorem c3_witness :
    (cancelPendingOrder "o1" stateCancelled).balance =
      stateCancelled.balance +
        (if cancelledBuyOrder.type = Side.buy then cancelledBuyOrder.total else 0) ∧
    (cancelPendingOrder "o1" stateCancelled).pendingOrders =
      stateCancelled.pendingOrders.map (fun o =>
        if o.id = "o1" then { o with status := OrderStatus.cancelled } else o) ∧
    (cancelPendingOrder "o1" stateCancelled).positions = stateCancelled.positions ∧
    (cancelPendingOrder "o1" stateCancelled).trades = stateCancelled.trades :=
  (c3_cancel_ignores_status "o1" stateCancelled).2 cancelledBuyOrder (by decide)

/-! ### Claim C5 -/

/-- C5: for every buy-side conditional order accepted by `placeLimitOrder`,
cash is debited by exactly `quantity * targetPrice` at submission time
(before any trigger) and positions are untouched; cancelling that order
refunds exactly the same amount, restoring the original cash balance, with
no side effects on positions. -/
theorem c5_reservation_roundtrip (newId ts : String) (req : LimitReq)
    (s : TradingState)
    (hbuy : req.type = Side.buy)
    (hafford : ¬ req.quantity * req.targetPrice > s.balance) :
    (placeLimitOrder newId ts req s).1 = true ∧
    (placeLimitOrder newId ts req s).2.balance =
      s.balance - req.quantity * req.targetPrice ∧
    (placeLimitOrder newId ts req s).2.positions = s.positions ∧
    (cancelPendingOrder newId (placeLimitOrder newId ts req s).2).balance = s.balance ∧
    (cancelPendingOrder newId (placeLimitOrder newId ts req s).2).positions =
      s.positions := by
  have h1 : ¬ (req.type = Side.buy ∧ req.quantity * req.targetPrice > s.balance) :=
    fun h => hafford h.2
  have h2 : ¬ (req.type = Side.sell ∧
      cannotSell req.ticker req.quantity s.positions = true) := by
    rintro ⟨hsell, -⟩
    rw [hbuy] at hsell
    exact Side.noConfusion hsell
  refine ⟨?_, ?_, ?_, ?_, ?_⟩
  · simp only [placeLimitOrder, if_neg h1, if_neg h2]
  · simp only [placeLimitOrder, if_neg h1, if_neg h2, if_pos hbuy]
  · simp only [placeLimitOrder, if_neg h1, if_neg h2]
  · simp only [placeLimitOrder, if_neg h1, if_neg h2, cancelPendingOrder, List.find?]
    simp [hbuy]
  · simp only [placeLimitOrder, if_neg h1, if_neg h2, cancelPendingOrder, List.find?]
    simp [hbuy]

theorem c5_witness :
    (placeLimitOrder "pC" "tsC" reqBuyLimitW stateCash1000).1 = true ∧
    (placeLimitOrder "pC" "tsC" reqBuyLimitW stateCash1000).2.balance =
      stateCash1000.balance - reqBuyLimitW.quantity * reqBuyLimitW.targetPrice ∧
    (placeLimitOrder "pC" "tsC" reqBuyLimitW stateCash1000).2.positions =
      stateCash1000.positions ∧
    (cancelPendingOrder "pC"
      (placeLimitOrder "pC" "tsC" reqBuyLimitW stateCash1000).2).balance =
      stateCash1000.balance ∧
    (cancelPendingOrder "pC"
      (placeLimitOrder "pC" "tsC" reqBuyLimitW stateCash1000).2).positions =
      stateCash1000.positions :=
  c5_reservation_roundtrip "pC" "tsC" reqBuyLimitW stateCash1000 rfl
    (by norm_num [reqBuyLimitW, stateCash1000])

/-! ### Claim C6 -/

theorem find?_updateFirst_of_found {p : α → Bool} {f : α → α} {l : List α} {y : α}
    (hfind : l.find? p = some y) (hp : p (f y) = true) :
    (updateFirst p f l).find? p = some (f y) := by
  induction l with
  | nil => simp [List.find?] at hfind
  | cons hd tl ih =>
    by_cases hph : p hd
    · rw [List.find?_cons_of_pos _ hph] at hfind
      injection hfind with hfind
      subst hfind
      simp only [updateFirst, hph, if_true]
      exact List.find?_cons_of_pos _ hp
    · rw [List.find?_cons_of_neg _ hph] at hfind
      simp only [updateFirst, hph, if_false, Bool.false_eq_true]
      rw [List.find?_cons_of_neg _ hph]
      exact ih hfind

theorem applySell_avgPrice {ticker : String} {quantity : ℚ} {l : List Position} :
    ∀ p' ∈ applySellToPositions ticker quantity l,
      ∃ p ∈ l, p'.ticker = p.ticker ∧ p'.avgPrice = p.avgPrice := by
  intro p' hp'
  unfold applySellToPositions at hp'
  split at hp'
  · exact ⟨p', hp', rfl, rfl⟩
  · split at hp'
    · exact ⟨p', List.mem_of_mem_filter hp', rfl, rfl⟩
    · rcases mem_updateFirst hp' with h | ⟨y, hy, rfl⟩
      · exact ⟨p', h, rfl, rfl⟩
      · exact ⟨y, List.mem_of_find?_eq_some hy, rfl, rfl⟩

/-- C6: on a buy fill that adds to an existing position, `placeMarketOrder`
recomputes the average cost as
`(avgCost*qty + fillPrice*fillQty) / (qty + fillQty)` (and the quantity as
`qty + fillQty`); on a sell fill every surviving position keeps its average
cost unchanged; and Scenario B holds: buying 10 AAPL at 150 and then 10
AAPL at 170 yields average cost 160 and cash 96800. -/
theorem c6_avg_cost_maintenance (a b c d e f g h : String)
    (breq sreq : MarketReq) (s : TradingState) (pos : Position)
    (hbuy : breq.type = Side.buy)
    (hafford : ¬ breq.quantity * breq.price > s.balance)
    (hfind : s.positions.find? (fun p => p.ticker = breq.ticker) = some pos)
    (hsell : sreq.type = Side.sell) :
    ((placeMarketOrder a b c d breq s).2.positions.find?
        (fun p => p.ticker = breq.ticker)).map (fun p => (p.avgPrice, p.quantity)) =
      some ((pos.avgPrice * pos.quantity + breq.price * breq.quantity) /
              (pos.quantity + breq.quantity),
            pos.quantity + breq.quantity) ∧
    (∀ p' ∈ (placeMarketOrder e f g h sreq s).2.positions,
      ∃ p ∈ s.positions, p'.ticker = p.ticker ∧ p'.avgPrice = p.avgPrice) ∧
    scenarioB.balance = 96800 ∧
    scenarioB.positions.map (fun p => (p.ticker, p.quantity, p.avgPrice)) =
      [("AAPL", 20, 160)] := by
  have h1 : ¬ (breq.type = Side.buy ∧ breq.quantity * breq.price > s.balance) :=
    fun hh => hafford hh.2
  have h2 : ¬ (breq.type = Side.sell ∧
      cannotSell breq.ticker breq.quantity s.positions = true) := by
    rintro ⟨hs, -⟩
    rw [hbuy] at hs
    exact Side.noConfusion hs
  refine ⟨?_, ?_, ?_, ?_⟩
  · simp only [placeMarketOrder, if_neg h1, if_neg h2, if_pos hbuy]
    simp only [applyBuyToPositions, hfind, Option.isSome_some, if_true]
    have hpos : (fun p => decide (p.ticker = breq.ticker)) pos = true := by
      have := List.find?_some hfind
      simpa using this
    rw [find?_updateFirst_of_found hfind (by simpa using hpos)]
    simp
  · intro p' hp'
    simp only [placeMarketOrder] at hp'
    by_cases hb1 : sreq.type = Side.buy ∧ sreq.quantity * sreq.price > s.balance
    · rw [if_pos hb1] at hp'
      exact ⟨p', hp', rfl, rfl⟩
    rw [if_neg hb1] at hp'
    by_cases hb2 : sreq.type = Side.sell ∧
        cannotSell sreq.ticker sreq.quantity s.positions = true
    · rw [if_pos hb2] at hp'
      exact ⟨p', hp', rfl, rfl⟩
    rw [if_neg hb2] at hp'
    simp only [] at hp'
    rw [if_neg (by rw [hsell]; exact fun hh => Side.noConfusion hh)] at hp'
    exact applySell_avgPrice p' hp'
  · norm_num +decide [scenarioB, scenarioA, reqBuyA, reqBuyB, initState,
      placeMarketOrder, applyBuyToPositions, truthy, cannotSell, updateFirst,
      List.find?]
  · norm_num +decide [scenarioB, scenarioA, reqBuyA, reqBuyB, initState,
      placeMarketOrder, applyBuyToPositions, truthy, cannotSell, updateFirst,
      List.find?]

theorem c6_witness :
    ((placeMarketOrder "w1" "w2" "w3" "w4" reqBuyB scenarioA).2.positions.find?
        (fun p => p.ticker = reqBuyB.ticker)).map (fun p => (p.avgPrice, p.quantity)) =
      some ((posA.avgPrice * posA.quantity + reqBuyB.price * reqBuyB.quantity) /
              (posA.quantity + reqBuyB.quantity),
            posA.quantity + reqBuyB.quantity) ∧
    (∀ p' ∈ (placeMarketOrder "w5" "w6" "w7" "w8" reqSell5 scenarioA).2.positions,
      ∃ p ∈ scenarioA.positions, p'.ticker = p.ticker ∧ p'.avgPrice = p.avgPrice) ∧
    scenarioB.balance = 96800 ∧
    scenarioB.positions.map (fun p => (p.ticker, p.quantity, p.avgPrice)) =
      [("AAPL", 20, 160)] :=
  c6_avg_cost_maintenance "w1" "w2" "w3" "w4" "w5" "w6" "w7" "w8"
    reqBuyB reqSell5 scenarioA posA rfl
    (by norm_num +decide [reqBuyB, scenarioA, reqBuyA, initState, placeMarketOrder,
      applyBuyToPositions, truthy, cannotSell, updateFirst, List.find?])
    (by norm_num +decide [scenarioA, reqBuyA, reqBuyB, initState, placeMarketOrder,
      applyBuyToPositions, truthy, cannotSell, updateFirst, List.find?, posA])
    rfl

/-! ### Claim C7 -/

/-- C7: during tick evaluation, a sell-side order whose trigger condition
holds but for which the account no longer holds sufficient quantity is
skipped: the loop step leaves the accumulator (fills, trades, cash change,
positions) exactly unchanged, so the order stays `pending` and is not
cancelled. Moreover (concrete retry demo) a pending sell of 10 AAPL with
only 5 held leaves the whole state untouched, and after re-accumulating 5
more shares the same order fills on the next evaluation. -/
theorem c7_insufficient_shares_skipped (gen : PendingOrder → String × String)
    (prices : String → Option ℚ) (acc : FillAcc) (order : PendingOrder) (fp : ℚ)
    (hpend : order.status = OrderStatus.pending)
    (hsell : order.type = Side.sell)
    (htrig : triggerDecision order ((prices order.ticker).getD 0) = some fp)
    (hshort : cannotSell order.ticker order.quantity acc.positionsToUpdate = true) :
    fillStep gen prices acc order = acc ∧
    checkAndFillOrders genR stateSkip = stateSkip ∧
    (checkAndFillOrders genR stateRetry).pendingOrders.map (fun o => o.status) =
      [OrderStatus.filled] ∧
    (checkAndFillOrders genR stateRetry).balance = 1700 ∧
    (checkAndFillOrders genR stateRetry).positions = [] := by
  refine ⟨?_, ?_, ?_, ?_, ?_⟩
  · unfold fillStep
    rw [if_neg (by simp [hpend])]
    by_cases h2 : ¬ truthy (prices order.ticker) = true
    · rw [if_pos h2]
    · rw [if_neg h2]
      simp only [htrig]
      rw [if_pos ⟨hsell, hshort⟩]
  · rfl
  · norm_num +decide [checkAndFillOrders, stateRetry, stateSkip, genR, fillStep,
      fillTrade, triggerDecision, posAAPL5, sellOrder10, placeMarketOrder,
      applyBuyToPositions, applySellToPositions, truthy, cannotSell, updateFirst,
      List.find?, List.foldl]
  · norm_num +decide [checkAndFillOrders, stateRetry, stateSkip, genR, fillStep,
      fillTrade, triggerDecision, posAAPL5, sellOrder10, placeMarketOrder,
      applyBuyToPositions, applySellToPositions, truthy, cannotSell, updateFirst,
      List.find?, List.foldl]
  · norm_num +decide [checkAndFillOrders, stateRetry, stateSkip, genR, fillStep,
      fillTrade, triggerDecision, posAAPL5, sellOrder10, placeMarketOrder,
      applyBuyToPositions, applySellToPositions, truthy, cannotSell, updateFirst,
      List.find?, List.foldl]

theorem c7_witness :
    fillStep genR stateSkip.currentPrices
      { filledOrderIds := [], newTrades := [], balanceChange := 0
        positionsToUpdate := stateSkip.positions } sellOrder10 =
      { filledOrderIds := [], newTrades := [], balanceChange := 0
        positionsToUpdate := stateSkip.positions } ∧
    checkAndFillOrders genR stateSkip = stateSkip ∧
    (checkAndFillOrders genR stateRetry).pendingOrders.map (fun o => o.status) =
      [OrderStatus.filled] ∧
    (checkAndFillOrders genR stateRetry).balance = 1700 ∧
    (checkAndFillOrders genR stateRetry).positions = [] :=
  c7_insufficient_shares_skipped genR stateSkip.currentPrices
    { filledOrderIds := [], newTrades := [], balanceChange := 0
      positionsToUpdate := stateSkip.positions } sellOrder10 150
    rfl rfl
    (by norm_num +decide [triggerDecision, sellOrder10, stateSkip])
    (by norm_num +decide [cannotSell, sellOrder10, stateSkip, posAAPL5, List.find?])

/-! ### Claim C4 -/

/-- C4: trigger evaluation on a tick with current price `p`: a buy limit
order triggers iff `p ≤ referencePrice` and fills at `referencePrice`; a
sell limit order triggers iff `p ≥ referencePrice` and fills at
`referencePrice`; a sell stop-loss triggers iff `p ≤ referencePrice` and
fills at `p`; a sell take-profit triggers iff `p ≥ referencePrice` and
fills at `p`. In particular (Scenario C), a pending limit sell of 5 AAPL at
165 causes no cash/position change at submission, and on a tick to 166
fills at 165 (not 166), crediting 825 to cash and leaving 15 shares. -/
theorem c4_trigger_rules (o : PendingOrder) (p : ℚ) :
    (o.orderType = POType.limit → o.type = Side.buy →
      triggerDecision o p = if p ≤ o.targetPrice then some o.targetPrice else none) ∧
    (o.orderType = POType.limit → o.type = Side.sell →
      triggerDecision o p = if p ≥ o.targetPrice then some o.targetPrice else none) ∧
    (o.orderType = POType.stopLoss → o.type = Side.sell →
      triggerDecision o p = if p ≤ o.targetPrice then some p else none) ∧
    (o.orderType = POType.takeProfit → o.type = Side.sell →
      triggerDecision o p = if p ≥ o.targetPrice then some p else none) ∧
    scenarioC1.balance = scenarioB.balance ∧
    scenarioC1.positions = scenarioB.positions ∧
    scenarioC3.balance = scenarioB.balance + 825 ∧
    scenarioC3.trades.head?.map (fun t => (t.ticker, t.quantity, t.price)) =
      some ("AAPL", 5, 165) ∧
    scenarioC3.positions.map (fun q => (q.ticker, q.quantity)) = [("AAPL", 15)] := by
  refine ⟨?_, ?_, ?_, ?_, ?_, ?_, ?_, ?_, ?_⟩
  · intro hk hb
    simp [triggerDecision, hk, hb]
  · intro hk hb
    simp [triggerDecision, hk, hb]
  · intro hk hb
    simp [triggerDecision, hk, hb]
  · intro hk hb
    simp [triggerDecision, hk, hb]
  · norm_num +decide [scenarioC1, scenarioB, scenarioA, reqBuyA, reqBuyB,
      reqSellC, initState, placeMarketOrder, placeLimitOrder,
      applyBuyToPositions, truthy, cannotSell, updateFirst, List.find?]
  · norm_num +decide [scenarioC1, scenarioB, scenarioA, reqBuyA, reqBuyB,
      reqSellC, initState, placeMarketOrder, placeLimitOrder,
      applyBuyToPositions, truthy, cannotSell, updateFirst, List.find?]
  · norm_num +decide [scenarioC3, scenarioC2, scenarioC1, scenarioB, scenarioA,
      reqBuyA, reqBuyB, reqSellC, initState, placeMarketOrder, placeLimitOrder,
      updatePrice, checkAndFillOrders, fillStep, fillTrade, triggerDecision,
      applyBuyToPositions, applySellToPositions, truthy, cannotSell,
      updateFirst, List.find?, List.foldl]
  · norm_num +decide [scenarioC3, scenarioC2, scenarioC1, scenarioB, scenarioA,
      reqBuyA, reqBuyB, reqSellC, initState, placeMarketOrder, placeLimitOrder,
      updatePrice, checkAndFillOrders, fillStep, fillTrade, triggerDecision,
      applyBuyToPositions, applySellToPositions, truthy, cannotSell,
      updateFirst, List.find?, List.foldl]
  · norm_num +decide [scenarioC3, scenarioC2, scenarioC1, scenarioB, scenarioA,
      reqBuyA, reqBuyB, reqSellC, initState, placeMarketOrder, placeLimitOrder,
      updatePrice, checkAndFillOrders, fillStep, fillTrade, triggerDecision,
      applyBuyToPositions, applySellToPositions, truthy, cannotSell,
      updateFirst, List.find?, List.foldl]

theorem c4_witness :
    triggerDecision sellOrder10 166 =
      (if (166:ℚ) ≥ sellOrder10.targetPrice then some sellOrder10.targetPrice
       else none) :=
  (c4_trigger_rules sellOrder10 166).2.1 rfl rfl

/-! ### Claim C10 -/

theorem triggerDecision_buy_stop_none (o : PendingOrder) (p : ℚ)
    (hb : o.type = Side.buy)
    (hk : o.orderType = POType.stopLoss ∨ o.orderType = POType.takeProfit) :
    triggerDecision o p = none := by
  rcases hk with hk | hk <;> simp [triggerDecision, hk, hb]

theorem mem_fillStep_filledOrderIds {gen : PendingOrder → String × String}
    {prices : String → Option ℚ} {acc : FillAcc} {hd : PendingOrder} {i : String}
    (h : i ∈ (fillStep gen prices acc hd).filledOrderIds) :
    i ∈ acc.filledOrderIds ∨
      (hd.id = i ∧ ∃ fp, triggerDecision hd ((prices hd.ticker).getD 0) = some fp) := by
  unfold fillStep at h
  by_cases h1 : hd.status ≠ OrderStatus.pending
  · rw [if_pos h1] at h; exact Or.inl h
  rw [if_neg h1] at h
  by_cases h2 : ¬ truthy (prices hd.ticker) = true
  · rw [if_pos h2] at h; exact Or.inl h
  rw [if_neg h2] at h
  split at h
  · exact Or.inl h
  · rename_i fp htr
    by_cases h3 : hd.type = Side.sell ∧
        cannotSell hd.ticker hd.quantity acc.positionsToUpdate = true
    · rw [if_pos h3] at h
      exact Or.inl h
    · rw [if_neg h3] at h
      simp only [List.mem_append, List.mem_singleton] at h
      rcases h with h | h
      · exact Or.inl h
      · exact Or.inr ⟨h.symm, fp, htr⟩

theorem filledOrderIds_foldl_origin {gen : PendingOrder → String × String}
    {prices : String → Option ℚ} :
    ∀ (orders : List PendingOrder) (acc : FillAcc) (i : String),
      i ∈ (orders.foldl (fillStep gen prices) acc).filledOrderIds →
      i ∈ acc.filledOrderIds ∨
        ∃ o ∈ orders, o.id = i ∧
          ∃ fp, triggerDecision o ((prices o.ticker).getD 0) = some fp := by
  intro orders
  induction orders with
  | nil => intro acc i h; exact Or.inl h
  | cons hd tl ih =>
    intro acc i h
    rcases ih _ i h with h' | ⟨o, ho, hoi, hfp⟩
    · rcases mem_fillStep_filledOrderIds h' with h'' | ⟨hid, hfp⟩
      · exact Or.inl h''
      · exact Or.inr ⟨hd, List.mem_cons_self _ _, hid, hfp⟩
    · exact Or.inr ⟨o, List.mem_cons_of_mem _ ho, hoi, hfp⟩

/-- C10 (implicit): a conditional order with side `buy` and kind
`stop-loss`/`take-profit` is accepted by `placeLimitOrder` — which debits
`quantity * targetPrice` from cash as a reservation — but its trigger never
fires at any price (the stop-loss and take-profit branches require side
`sell`), so no `checkAndFillOrders` call ever fills it: all orders with its
id survive evaluation untouched. The debited cash is recovered by
cancelling the order. -/
theorem c10_buy_conditional_stop_never_fills (newId ts : String)
    (req : LimitReq) (s : TradingState)
    (hbuy : req.type = Side.buy)
    (hkind : req.orderType = POType.stopLoss ∨ req.orderType = POType.takeProfit)
    (hafford : ¬ req.quantity * req.targetPrice > s.balance) :
    (∀ p : ℚ, triggerDecision
      { id := newId, ticker := req.ticker, type := req.type
        orderType := req.orderType, quantity := req.quantity
        targetPrice := req.targetPrice, total := req.quantity * req.targetPrice
        createdAt := ts, status := OrderStatus.pending
        stopLoss := req.stopLoss, takeProfit := req.takeProfit } p = none) ∧
    (placeLimitOrder newId ts req s).1 = true ∧
    (placeLimitOrder newId ts req s).2.balance =
      s.balance - req.quantity * req.targetPrice ∧
    (∀ (o : PendingOrder) (p : ℚ), o.type = Side.buy →
      (o.orderType = POType.stopLoss ∨ o.orderType = POType.takeProfit) →
      triggerDecision o p = none) ∧
    (∀ (s' : TradingState) (gen : PendingOrder → String × String) (oid : String),
      (∀ o ∈ s'.pendingOrders, o.id = oid → o.type = Side.buy ∧
        (o.orderType = POType.stopLoss ∨ o.orderType = POType.takeProfit)) →
      ∀ o' ∈ (checkAndFillOrders gen s').pendingOrders, o'.id = oid →
        o' ∈ s'.pendingOrders) ∧
    (cancelPendingOrder newId (placeLimitOrder newId ts req s).2).balance =
      s.balance := by
  have h1 : ¬ (req.type = Side.buy ∧ req.quantity * req.targetPrice > s.balance) :=
    fun hh => hafford hh.2
  have h2 : ¬ (req.type = Side.sell ∧
      cannotSell req.ticker req.quantity s.positions = true) := by
    rintro ⟨hs, -⟩
    rw [hbuy] at hs
    exact Side.noConfusion hs
  refine ⟨?_, ?_, ?_, ?_, ?_, ?_⟩
  · intro p
    exact triggerDecision_buy_stop_none _ p hbuy hkind
  · simp only [placeLimitOrder, if_neg h1, if_neg h2]
  · simp only [placeLimitOrder, if_neg h1, if_neg h2, if_pos hbuy]
  · exact triggerDecision_buy_stop_none
  · intro s' gen oid hall o' ho' hid
    have hnotin : oid ∉ (s'.pendingOrders.foldl (fillStep gen s'.currentPrices)
        { filledOrderIds := []
          newTrades := []
          balanceChange := 0
          positionsToUpdate := s'.positions }).filledOrderIds := by
      intro hin
      rcases filledOrderIds_foldl_origin s'.pendingOrders _ oid hin with
        h | ⟨o, ho, hoi, fp, hfp⟩
      · simp at h
      · have hprop := hall o ho hoi
        rw [triggerDecision_buy_stop_none o _ hprop.1 hprop.2] at hfp
        exact Option.noConfusion hfp
    simp only [checkAndFillOrders] at ho'
    split_ifs at ho' with hc
    · simp only [List.mem_map] at ho'
      obtain ⟨o0, ho0, rfl⟩ := ho'
      by_cases hcont : (s'.pendingOrders.foldl (fillStep gen s'.currentPrices)
          { filledOrderIds := []
            newTrades := []
            balanceChange := 0
            positionsToUpdate := s'.positions }).filledOrderIds.contains o0.id = true
      · exfalso
        rw [if_pos hcont] at hid
        apply hnotin
        rw [show o0.id = oid from hid] at hcont
        simpa using hcont
      · rw [if_neg hcont]
        exact ho0
    · exact ho'
  · simp only [placeLimitOrder, if_neg h1, if_neg h2, cancelPendingOrder, List.find?]
    simp [hbuy]

theorem c10_witness :
    (∀ p : ℚ, triggerDecision
      { id := "pS", ticker := reqBuyStop.ticker, type := reqBuyStop.type
        orderType := reqBuyStop.orderType, quantity := reqBuyStop.quantity
        targetPrice := reqBuyStop.targetPrice
        total := reqBuyStop.quantity * reqBuyStop.targetPrice
        createdAt := "tsS", status := OrderStatus.pending
        stopLoss := reqBuyStop.stopLoss, takeProfit := reqBuyStop.takeProfit } p = none) ∧
    (placeLimitOrder "pS" "tsS" reqBuyStop stateCash1000).1 = true ∧
    (placeLimitOrder "pS" "tsS" reqBuyStop stateCash1000).2.balance =
      stateCash1000.balance - reqBuyStop.quantity * reqBuyStop.targetPrice ∧
    (∀ (o : PendingOrder) (p : ℚ), o.type = Side.buy →
      (o.orderType = POType.stopLoss ∨ o.orderType = POType.takeProfit) →
      triggerDecision o p = none) ∧
    (∀ (s' : TradingState) (gen : PendingOrder → String × String) (oid : String),
      (∀ o ∈ s'.pendingOrders, o.id = oid → o.type = Side.buy ∧
        (o.orderType = POType.stopLoss ∨ o.orderType = POType.takeProfit)) →
      ∀ o' ∈ (checkAndFillOrders gen s').pendingOrders, o'.id = oid →
        o' ∈ s'.pendingOrders) ∧
    (cancelPendingOrder "pS" (placeLimitOrder "pS" "tsS" reqBuyStop stateCash1000).2).balance =
      stateCash1000.balance :=
  c10_buy_conditional_stop_never_fills "pS" "tsS" reqBuyStop stateCash1000
    rfl (Or.inl rfl) (by norm_num [reqBuyStop, stateCash1000])

/-! ### Claim C8 -/

/-- C8 counterexample: on a log whose first fill is an uncovered sell
followed by an opposite-side buy, the source's reconciler emits no round
trip at all, while the algorithm the claim describes (per-symbol FIFO
queues of open buy lots *or open short lots, symmetric*, sign-flipped pnl
for short round trips) emits one short round trip with pnl
`(10 - 8) * 5 = 10`. -/
theorem c8_counterexample :
    convertRoundTrips keyT sellFirstLog = [] ∧
    fifoWithShorts keyT sellFirstLog =
      [{ timestamp := "u2", asset := "ABC", side := "BUY", quantity := 5
         entry_price := 10, exit_price := 8, profit_loss := 10 }] := by
  constructor
  · norm_num +decide [convertRoundTrips, sortByKey, insertByKey, keyT,
      sellFirstLog, reconStep, matchSell, List.foldr, List.foldl]
  · norm_num +decide [fifoWithShorts, sortByKey, insertByKey, keyT,
      sellFirstLog, specStep, specConsume, mkSpecRoundTrip, List.foldr,
      List.foldl]

theorem matchSell_eq_consumeLots (exitPrice : ℚ) (ts asset : String) :
    ∀ (lots : List OpenLot) (remaining : ℚ),
      matchSell exitPrice ts asset remaining lots =
        consumeLots exitPrice ts asset remaining lots := by
  intro lots
  induction lots with
  | nil => intro r; rfl
  | cons lot rest ih =>
    intro r
    simp only [matchSell, consumeLots]
    by_cases h0 : r ≤ 0
    · rw [if_pos h0, if_neg (not_lt.mpr h0)]
    · rw [if_neg h0, if_pos (not_le.mp h0)]
      by_cases hlt : r < lot.quantity
      · have hmin : min r lot.quantity = r := min_eq_left (le_of_lt hlt)
        rw [if_pos hlt, if_neg (by rw [hmin]; linarith)]
        simp only [hmin]
      · have hle : lot.quantity ≤ r := not_lt.mp hlt
        have hmin : min r lot.quantity = lot.quantity := min_eq_right hle
        rw [if_neg hlt, if_pos (by rw [hmin]; linarith)]
        simp only [hmin, ih]

theorem foldl_reconStep_eq_fifoGo :
    ∀ (ts : List FilledTrade) (lots : String → List OpenLot)
      (acc : List RoundTripTrade),
      (ts.foldl reconStep
          { openPositions := lots, roundTrips := acc }).roundTrips =
        acc ++ fifoGo ts lots := by
  intro ts
  induction ts with
  | nil =>
    intro lots acc
    simp [fifoGo]
  | cons t rest ih =>
    intro lots acc
    cases htype : t.type with
    | buy =>
      simp only [List.foldl_cons, reconStep, htype, fifoGo]
      rw [ih]
    | sell =>
      simp only [List.foldl_cons, reconStep, htype, fifoGo,
        matchSell_eq_consumeLots]
      rw [ih, List.append_assoc]

/-- C8 (amended): the Round-Trip Reconciler processes filled trades in
timestamp order and maintains a per-symbol FIFO queue of open **buy** lots
only; on each sell fill it consumes lots from the front of the queue,
splitting a lot when the sell quantity is smaller than the lot's remaining
quantity, and emits one round-trip record per (sell, consumed-lot) pairing
with `pnl = (exitPrice - entryPrice) * matchedQuantity`. There is no
symmetric short-lot handling: sell quantity not covered by open buy lots is
dropped without emitting a record or opening a short lot. -/
theorem c8_fifo_long_only (key : String → ℤ) (trades : List FilledTrade) :
    convertRoundTrips key trades = fifoLongOnly key trades := by
  unfold convertRoundTrips fifoLongOnly
  rw [foldl_reconStep_eq_fifoGo]
  simp

/-! ### Claim C9 -/

/-- C9 counterexample: the exported CSV does not have exactly the eight
claimed columns — its header row has ten entries, the claimed eight
followed by `CALC_BAL` and `H-I`. -/
theorem c9_counterexample :
    csvHeaders ≠ ["timestamp", "asset", "side", "quantity", "entry_price",
      "exit_price", "profit_loss", "balance"] ∧
    csvHeaders.length = 10 := by
  exact ⟨by decide, rfl⟩

theorem csvRows_balance_column :
    ∀ (rts : List RoundTripTrade) (b : ℚ) (rows : List CsvRow),
      ((rts.foldl csvStep (b, rows)).2).map (fun r => r.balance) =
        rows.map (fun r => r.balance) ++
          runningBalances b (rts.map (fun rt => rt.profit_loss)) := by
  intro rts
  induction rts with
  | nil =>
    intro b rows
    simp [runningBalances]
  | cons rt rest ih =>
    intro b rows
    simp only [List.foldl_cons, csvStep, List.map_cons, runningBalances]
    rw [ih]
    simp

theorem csvRows_data_columns :
    ∀ (rts : List RoundTripTrade) (b : ℚ) (rows : List CsvRow),
      ((rts.foldl csvStep (b, rows)).2).map (fun r =>
          (r.timestamp, r.asset, r.side, r.quantity, r.entry_price,
            r.exit_price, r.profit_loss)) =
        rows.map (fun r =>
          (r.timestamp, r.asset, r.side, r.quantity, r.entry_price,
            r.exit_price, r.profit_loss)) ++
          rts.map (fun rt =>
            (rt.timestamp, rt.asset, rt.side, rt.quantity, rt.entry_price,
              rt.exit_price, rt.profit_loss)) := by
  intro rts
  induction rts with
  | nil =>
    intro b rows
    simp
  | cons rt rest ih =>
    intro b rows
    simp only [List.foldl_cons, csvStep, List.map_cons]
    rw [ih]
    simp

theorem csvRows_aux_columns :
    ∀ (rts : List RoundTripTrade) (b : ℚ) (rows : List CsvRow),
      (∀ r ∈ rows, r.calcBal = r.balance ∧ r.hI = 0) →
      ∀ r ∈ (rts.foldl csvStep (b, rows)).2, r.calcBal = r.balance ∧ r.hI = 0 := by
  intro rts
  induction rts with
  | nil =>
    intro b rows h
    exact h
  | cons rt rest ih =>
    intro b rows h
    simp only [List.foldl_cons, csvStep]
    refine ih _ _ ?_
    intro r hr
    rcases List.mem_append.mp hr with hr | hr
    · exact h r hr
    · simp only [List.mem_singleton] at hr
      subst hr
      exact ⟨rfl, rfl⟩

/-- C9 (amended): the exported round-trip CSV has ten columns — the claimed
`timestamp, asset, side, quantity, entry_price, exit_price, profit_loss,
balance`, in that order, followed by two extra columns `CALC_BAL`
(duplicating the balance) and `H-I` (constant 0). The `balance` column is a
running fold that adds each round trip's `profit_loss` to the starting
balance 100000, and the data columns reproduce the reconciler's output in
order. -/
theorem c9_csv_shape (rts : List RoundTripTrade) :
    csvHeaders = ["timestamp", "asset", "side", "quantity", "entry_price",
      "exit_price", "profit_loss", "balance"] ++ ["CALC_BAL", "H-I"] ∧
    (csvRows rts).map (fun r => r.balance) =
      runningBalances 100000 (rts.map (fun rt => rt.profit_loss)) ∧
    (csvRows rts).map (fun r =>
        (r.timestamp, r.asset, r.side, r.quantity, r.entry_price,
          r.exit_price, r.profit_loss)) =
      rts.map (fun rt =>
        (rt.timestamp, rt.asset, rt.side, rt.quantity, rt.entry_price,
          rt.exit_price, rt.profit_loss)) ∧
    ∀ r ∈ csvRows rts, r.calcBal = r.balance ∧ r.hI = 0 := by
  refine ⟨by decide, ?_, ?_, ?_⟩
  · unfold csvRows
    rw [csvRows_balance_column]
    rfl
  · unfold csvRows
    rw [csvRows_data_columns]
    rfl
  · unfold csvRows
    exact csvRows_aux_columns rts csvInitialBalance [] (by intro r hr; simp at hr)

theorem c8_witness :
    convertRoundTrips keyT sellFirstLog = fifoLongOnly keyT sellFirstLog :=
  c8_fifo_long_only keyT sellFirstLog

theorem c9_witness :
    csvHeaders = ["timestamp", "asset", "side", "quantity", "entry_price",
      "exit_price", "profit_loss", "balance"] ++ ["CALC_BAL", "H-I"] ∧
    (csvRows rtsW).map (fun r => r.balance) =
      runningBalances 100000 (rtsW.map (fun rt => rt.profit_loss)) ∧
    (csvRows rtsW).map (fun r =>
        (r.timestamp, r.asset, r.side, r.quantity, r.entry_price,
          r.exit_price, r.profit_loss)) =
      rtsW.map (fun rt =>
        (rt.timestamp, rt.asset, rt.side, rt.quantity, rt.entry_price,
          rt.exit_price, rt.profit_loss)) ∧
    ∀ r ∈ csvRows rtsW, r.calcBal = r.balance ∧ r.hI = 0 :=
  c9_csv_shape rtsW

end CogniTrade
